import Mathlib

/-!
Verification of the kinematics core of the Robotics repository
(`src/RobotKinematics.ts`) against its natural-language specification.

Shallow embedding conventions:
* JavaScript IEEE-754 numbers are idealised as real numbers `ℝ`.
* `Array.prototype.reduce` without an initial value is modelled by pattern
  matching on the list: the empty case is the thrown `TypeError`, the
  non-empty case folds from the head.
* The thrown `Error` of `calculateForwardKinematics` and the `TypeError` of
  the empty `reduce` are modelled by an `Except FKError` result; the
  structural error carries the expected and received counts that appear in
  the source's message string.
* `jointAngles[i]` (always in range at its use site, guarded by the length
  check) is modelled by `List.getD i 0`.
* The `for (let theta1 = 0; theta1 < 2*PI; theta1 += PI/180)` loop touches
  exactly the samples `k * (π/180)` for `k = 0, …, 359` (since
  `359·π/180 < 2π ≤ 360·π/180`), so it is modelled as a fold over that list.
* Real division is total with `x / 0 = 0`; every division in the claims
  settled below is applied away from a zero denominator.
-/

set_option linter.unusedVariables false

inductive JointType
  | revolute
  | prismatic
deriving DecidableEq

structure Point3D where
  x : ℝ
  y : ℝ
  z : ℝ

structure DHParameters where
  theta : ℝ
  d : ℝ
  a : ℝ
  alpha : ℝ

structure JointLimit where
  min : ℝ
  max : ℝ

structure RobotConfig where
  name : String
  description : String
  dhParameters : List DHParameters
  jointLimits : List JointLimit
  jointTypes : List JointType
  baseOffset : Point3D
  toolOffset : Point3D

/-- Result of forward kinematics: a position (rows 0–2 of column 3 of the
final transform) and an orientation (its top-left 3×3 block). -/
structure Pose where
  position : Fin 3 → ℝ
  orientation : Matrix (Fin 3) (Fin 3) ℝ

/-- The two ways `calculateForwardKinematics` can throw: the explicit
`Error` for a joint-angle count mismatch (carrying the expected and received
counts of the message string), and the `TypeError` raised by
`Array.prototype.reduce` on an empty array with no initial value. -/
inductive FKError
  | structural (expected got : ℕ)
  | emptyReduce
deriving DecidableEq

structure IKResult where
  solutions : List (List ℝ)
  valid : Bool

/-- `calculateDHTransform` from the source: the standard DH matrix for one
joint, with `θ = params.theta + jointAngle`. -/
noncomputable def calculateDHTransform (params : DHParameters) (jointAngle : ℝ) :
    Matrix (Fin 4) (Fin 4) ℝ :=
  let ct := Real.cos (params.theta + jointAngle)
  let st := Real.sin (params.theta + jointAngle)
  let ca := Real.cos params.alpha
  let sa := Real.sin params.alpha
  Matrix.of ![![ct, -st * ca, st * sa, params.a * ct],
              ![st, ct * ca, -ct * sa, params.a * st],
              ![0, sa, ca, params.d],
              ![0, 0, 0, 1]]

/-- Extraction of a `Pose` from the final composed 4×4 transform: position is
rows 0–2 of column 3, orientation is the top-left 3×3 block. -/
def poseOfTransform (T : Matrix (Fin 4) (Fin 4) ℝ) : Pose :=
  { position := fun i => T i.castSucc 3
    orientation := T.submatrix Fin.castSucc Fin.castSucc }

/-- The per-joint transform list of `calculateForwardKinematics`:
`dhParameters.map((params, i) => calculateDHTransform(params, jointAngles[i]))`. -/
noncomputable def dhTransforms (cfg : RobotConfig) (jointAngles : List ℝ) :
    List (Matrix (Fin 4) (Fin 4) ℝ) :=
  cfg.dhParameters.mapIdx (fun i params => calculateDHTransform params (jointAngles.getD i 0))

/-- `calculateForwardKinematics` from the source: length check, per-joint DH
transforms, composition by `reduce` (no initial value — empty input throws),
then pose extraction. -/
noncomputable def calculateForwardKinematics (cfg : RobotConfig) (jointAngles : List ℝ) :
    Except FKError Pose :=
  if jointAngles.length ≠ cfg.dhParameters.length then
    .error (.structural cfg.dhParameters.length jointAngles.length)
  else
    match dhTransforms cfg jointAngles with
    | [] => .error .emptyReduce
    | t :: ts => .ok (poseOfTransform (ts.foldl (· * ·) t))

/-- Modelled from the spec's words (§4.1): the standard DH 4×4 homogeneous
transform with `θ = theta0 + jointVariable`, written out entry by entry. -/
noncomputable def specDHMatrix (params : DHParameters) (jointVariable : ℝ) :
    Matrix (Fin 4) (Fin 4) ℝ :=
  Matrix.of ![![Real.cos (params.theta + jointVariable),
               -Real.sin (params.theta + jointVariable) * Real.cos params.alpha,
               Real.sin (params.theta + jointVariable) * Real.sin params.alpha,
               params.a * Real.cos (params.theta + jointVariable)],
              ![Real.sin (params.theta + jointVariable),
               Real.cos (params.theta + jointVariable) * Real.cos params.alpha,
               -Real.cos (params.theta + jointVariable) * Real.sin params.alpha,
               params.a * Real.sin (params.theta + jointVariable)],
              ![0, Real.sin params.alpha, Real.cos params.alpha, params.d],
              ![0, 0, 0, 1]]

/-- Modelled from the spec's words (§4.2): one transform per joint using the
corresponding commanded angle, composed left-to-right by matrix
multiplication in joint order (product started from the identity). -/
noncomputable def specForwardTransform (cfg : RobotConfig) (jointAngles : List ℝ) :
    Matrix (Fin 4) (Fin 4) ℝ :=
  (List.zipWith calculateDHTransform cfg.dhParameters jointAngles).foldl (· * ·) 1

/-- Modelled from the spec's words (§4.2): the pose whose position is the
translation column (rows 0–2, column 3) and whose orientation is the
top-left 3×3 block of the final composed transform. -/
noncomputable def specForwardPose (cfg : RobotConfig) (jointAngles : List ℝ) : Pose :=
  poseOfTransform (specForwardTransform cfg jointAngles)

/-- `getWorkspaceRadius` from the source:
`dhParameters.reduce((sum, params) => sum + params.a, 0)`. -/
def getWorkspaceRadius (cfg : RobotConfig) : ℝ :=
  cfg.dhParameters.foldl (fun sum params => sum + params.a) 0

/-- JavaScript's `Math.atan2(y, x)` on real (non-NaN, finite) inputs. -/
noncomputable def atan2 (y x : ℝ) : ℝ :=
  if 0 < x then Real.arctan (y / x)
  else if x < 0 then
    (if 0 ≤ y then Real.arctan (y / x) + Real.pi else Real.arctan (y / x) - Real.pi)
  else
    (if 0 < y then Real.pi / 2 else if y < 0 then -(Real.pi / 2) else 0)

/-- One inverse-kinematics candidate: its joint angles and its
forward-kinematics position error against the target. -/
structure Candidate where
  solution : List ℝ
  error : ℝ

/-- The base-angle samples visited by
`for (let theta1 = 0; theta1 < 2*PI; theta1 += PI/180)`:
exactly `k·(π/180)` for `k = 0, …, 359`. -/
noncomputable def thetaSamples : List ℝ :=
  (List.range 360).map (fun (k : ℕ) => (k : ℝ) * (Real.pi / 180))

/-- Position component of `calculateForwardKinematics`, as used by the
inverse solver's verification step. The error branch is unreachable at every
use site (the solver always passes three angles to a three-joint robot). -/
noncomputable def fkPositionD (cfg : RobotConfig) (jointAngles : List ℝ) : Fin 3 → ℝ :=
  match calculateForwardKinematics cfg jointAngles with
  | .ok p => p.position
  | .error _ => fun _ => 0

/-- The Euclidean position error of a candidate against the target, computed
with `Math.pow(·, 2)` as in the source. -/
noncomputable def positionError (cfg : RobotConfig) (sol : List ℝ) (x y z : ℝ) : ℝ :=
  let p := fkPositionD cfg sol
  Real.sqrt ((p 0 - x) ^ 2 + (p 1 - y) ^ 2 + (p 2 - z) ^ 2)

/-- The elbow-down accumulator update:
`if (bestSolution === null || error < bestSolution.error) bestSolution = {solution, error}`. -/
noncomputable def updateBest (best : Option Candidate) (c : Candidate) : Option Candidate :=
  match best with
  | none => some c
  | some b => if c.error < b.error then some c else some b

/-- One iteration of the primary (elbow-down) sweep of
`calculateInverseKinematics`, for a given base angle `theta1`. -/
noncomputable def elbowDownStep (cfg : RobotConfig) (a1 a2 a3 d1 d2 x y z : ℝ)
    (best : Option Candidate) (theta1 : ℝ) : Option Candidate :=
  let shoulderX := a1 * Real.cos theta1
  let shoulderY := a1 * Real.sin theta1
  let shoulderZ := d1 + d2
  let dx := x - shoulderX
  let dy := y - shoulderY
  let dz := z - shoulderZ
  let shoulderToTarget := Real.sqrt (dx * dx + dy * dy + dz * dz)
  if shoulderToTarget > a2 + a3 then best
  else
    let cosTheta3 := (a2 * a2 + a3 * a3 - shoulderToTarget * shoulderToTarget) / (2 * a2 * a3)
    if |cosTheta3| > 1 then best
    else
      let theta3 := Real.arccos cosTheta3
      let cosTheta2 := (a2 * a2 + shoulderToTarget * shoulderToTarget - a3 * a3) /
        (2 * a2 * shoulderToTarget)
      if |cosTheta2| > 1 then best
      else
        let alpha := Real.arccos cosTheta2
        let beta := atan2 dz (Real.sqrt (dx * dx + dy * dy))
        let theta2 := beta - alpha
        let sol := [theta1, theta2, theta3]
        updateBest best ⟨sol, positionError cfg sol x y z⟩

/-- One iteration of the secondary (elbow-up) sweep, using the inverted
elbow angle; a candidate is installed only when
`error < 0.1 && (elbowUpSolution === null || error < elbowUpSolution.error)`. -/
noncomputable def elbowUpStep (cfg : RobotConfig) (a1 a2 a3 d1 d2 x y z invertedTheta3 : ℝ)
    (acc : Option Candidate) (theta1 : ℝ) : Option Candidate :=
  let shoulderX := a1 * Real.cos theta1
  let shoulderY := a1 * Real.sin theta1
  let shoulderZ := d1 + d2
  let dx := x - shoulderX
  let dy := y - shoulderY
  let dz := z - shoulderZ
  let shoulderToTarget := Real.sqrt (dx * dx + dy * dy + dz * dz)
  if shoulderToTarget > a2 + a3 then acc
  else
    let cosTheta2 := (a2 * a2 + shoulderToTarget * shoulderToTarget - a3 * a3) /
      (2 * a2 * shoulderToTarget)
    if |cosTheta2| > 1 then acc
    else
      let alpha := Real.arccos cosTheta2
      let beta := atan2 dz (Real.sqrt (dx * dx + dy * dy))
      let newTheta2 := beta - alpha
      let sol := [theta1, newTheta2, invertedTheta3]
      let err := positionError cfg sol x y z
      match acc with
      | none => if err < 1 / 10 then some ⟨sol, err⟩ else none
      | some u => if err < 1 / 10 ∧ err < u.error then some ⟨sol, err⟩ else some u

/-- The whole primary (elbow-down) sweep over the base-angle samples. -/
noncomputable def sweepDown (cfg : RobotConfig) (a1 a2 a3 d1 d2 x y z : ℝ) :
    Option Candidate :=
  thetaSamples.foldl (elbowDownStep cfg a1 a2 a3 d1 d2 x y z) none

/-- The whole secondary (elbow-up) sweep over the base-angle samples. -/
noncomputable def sweepUp (cfg : RobotConfig) (a1 a2 a3 d1 d2 x y z invertedTheta3 : ℝ) :
    Option Candidate :=
  thetaSamples.foldl (elbowUpStep cfg a1 a2 a3 d1 d2 x y z invertedTheta3) none

/-- `calculateInverseKinematics` from the source. `d3` and `h` are computed
by the source only for diagnostic printing and are unused. -/
noncomputable def calculateInverseKinematics (cfg : RobotConfig) (x y z : ℝ) : IKResult :=
  if cfg.dhParameters.length ≠ 3 then { solutions := [], valid := false }
  else
    let a1 := (cfg.dhParameters.getD 0 ⟨0, 0, 0, 0⟩).a
    let a2 := (cfg.dhParameters.getD 1 ⟨0, 0, 0, 0⟩).a
    let a3 := (cfg.dhParameters.getD 2 ⟨0, 0, 0, 0⟩).a
    let d1 := (cfg.dhParameters.getD 0 ⟨0, 0, 0, 0⟩).d
    let d2 := (cfg.dhParameters.getD 1 ⟨0, 0, 0, 0⟩).d
    let d3 := (cfg.dhParameters.getD 2 ⟨0, 0, 0, 0⟩).d
    let h := z - d1
    let r := Real.sqrt (x * x + y * y)
    let maxReach := a1 + a2 + a3
    if r > maxReach then { solutions := [], valid := false }
    else
      match sweepDown cfg a1 a2 a3 d1 d2 x y z with
      | none => { solutions := [], valid := false }
      | some best =>
        let invertedTheta3 := -(best.solution.getD 2 0)
        match sweepUp cfg a1 a2 a3 d1 d2 x y z invertedTheta3 with
        | none => { solutions := [best.solution], valid := true }
        | some up => { solutions := [best.solution, up.solution], valid := true }

/-- `isReachable` from the source: the validity flag of the inverse solver. -/
noncomputable def isReachable (cfg : RobotConfig) (x y z : ℝ) : Bool :=
  (calculateInverseKinematics cfg x y z).valid

/-! ### Concrete configurations used by witnesses and counterexamples -/

def zeroPoint : Point3D := ⟨0, 0, 0⟩

def zeroLimit : JointLimit := ⟨0, 0⟩

/-- A three-joint chain with a tall base column: `a1 = 0`, `a2 = a3 = 1`,
`d1 = 10`. Its planar reach is 2 but its shoulder sits 10 units up. -/
def dhTall : List DHParameters := [⟨0, 10, 0, 0⟩, ⟨0, 0, 1, 0⟩, ⟨0, 0, 1, 0⟩]

def cfgTall : RobotConfig :=
  { name := "tall", description := "tall base column",
    dhParameters := dhTall,
    jointLimits := [zeroLimit, zeroLimit, zeroLimit],
    jointTypes := [.revolute, .revolute, .revolute],
    baseOffset := zeroPoint, toolOffset := zeroPoint }

/-- The same chain with every joint declared prismatic. -/
def cfgPrismatic : RobotConfig :=
  { cfgTall with jointTypes := [.prismatic, .prismatic, .prismatic] }

/-- A planar three-joint chain: `a1 = 0`, `a2 = a3 = 1`, all offsets zero. -/
def cfgFlat : RobotConfig :=
  { name := "flat", description := "planar chain",
    dhParameters := [⟨0, 0, 0, 0⟩, ⟨0, 0, 1, 0⟩, ⟨0, 0, 1, 0⟩],
    jointLimits := [zeroLimit, zeroLimit, zeroLimit],
    jointTypes := [.revolute, .revolute, .revolute],
    baseOffset := zeroPoint, toolOffset := zeroPoint }

/-- A three-joint arm with link lengths 1, 2, 3 (total reach 6). -/
def cfgArm : RobotConfig :=
  { name := "arm", description := "link lengths 1 2 3",
    dhParameters := [⟨0, 0, 1, 0⟩, ⟨0, 0, 2, 0⟩, ⟨0, 0, 3, 0⟩],
    jointLimits := [zeroLimit, zeroLimit, zeroLimit],
    jointTypes := [.revolute, .revolute, .revolute],
    baseOffset := zeroPoint, toolOffset := zeroPoint }

/-- A one-joint robot. -/
def cfgOne : RobotConfig :=
  { name := "one", description := "single joint",
    dhParameters := [⟨0, 1, 2, 0⟩],
    jointLimits := [zeroLimit], jointTypes := [.revolute],
    baseOffset := zeroPoint, toolOffset := zeroPoint }

/-- A two-joint robot. -/
def cfgTwo : RobotConfig :=
  { name := "two", description := "two joints",
    dhParameters := [⟨0, 0, 1, 0⟩, ⟨0, 0, 1, 0⟩],
    jointLimits := [zeroLimit, zeroLimit], jointTypes := [.revolute, .revolute],
    baseOffset := zeroPoint, toolOffset := zeroPoint }

/-- A robot with no joints at all. -/
def cfgEmpty : RobotConfig :=
  { name := "empty", description := "no joints",
    dhParameters := [], jointLimits := [], jointTypes := [],
    baseOffset := zeroPoint, toolOffset := zeroPoint }

/-! ### Helper lemmas -/

lemma foldl_add_a (l : List DHParameters) (c : ℝ) :
    l.foldl (fun s p => s + p.a) c = c + (l.map DHParameters.a).sum := by
  induction l generalizing c with
  | nil => simp
  | cons p t ih => simp [ih, add_assoc]

/-! ### C2 -/

/-- C2: `calculateDHTransform` returns exactly the spec's DH matrix with
`θ = theta0 + jointVariable`, for every joint spec and every scalar joint
variable; as a Lean function it is total (no failure modes). -/
theorem calculateDHTransform_eq_specDHMatrix (params : DHParameters) (v : ℝ) :
    calculateDHTransform params v = specDHMatrix params v := rfl

/-! ### C7 -/

/-- C7: for every configuration with `N` joints and every joint-angle list of
length `M ≠ N`, `calculateForwardKinematics` fails with the structural error
reporting expected `N` and received `M`; the error is the immediate result
(never recovered internally). -/
theorem fk_length_mismatch (cfg : RobotConfig) (angles : List ℝ)
    (h : angles.length ≠ cfg.dhParameters.length) :
    calculateForwardKinematics cfg angles =
      .error (.structural cfg.dhParameters.length angles.length) := by
  unfold calculateForwardKinematics
  rw [if_pos h]

/-- Witness for C7: one joint configured, no angles supplied. -/
theorem fk_length_mismatch_witness :
    ([] : List ℝ).length ≠ cfgOne.dhParameters.length ∧
    calculateForwardKinematics cfgOne [] =
      .error (.structural cfgOne.dhParameters.length ([] : List ℝ).length) :=
  ⟨by simp [cfgOne], fk_length_mismatch cfgOne [] (by simp [cfgOne])⟩

/-! ### C10 -/

/-- C10: for a configuration with no joints, the empty joint-angle list
passes the length check, yet forward kinematics still fails, because the
transform list is folded with `reduce` without an initial value; so the
success path is not total even when the angle count matches. -/
theorem fk_empty_config_throws (cfg : RobotConfig) (h : cfg.dhParameters = []) :
    ([] : List ℝ).length = cfg.dhParameters.length ∧
    calculateForwardKinematics cfg [] = .error .emptyReduce := by
  refine ⟨by rw [h]; rfl, ?_⟩
  simp [calculateForwardKinematics, dhTransforms, h]

/-- Witness for C10: the zero-joint configuration. -/
theorem fk_empty_config_throws_witness :
    cfgEmpty.dhParameters = [] ∧
    calculateForwardKinematics cfgEmpty [] = .error .emptyReduce :=
  ⟨rfl, (fk_empty_config_throws cfgEmpty rfl).2⟩

/-! ### C9 -/

/-- C9: `getWorkspaceRadius` equals the exact sum of the `a` (link length)
fields over all DH entries (so in particular its absolute error against that
sum is below `1e-10`), and it depends on nothing but that list of link
lengths — joint limits, base/tool offsets and `d` offsets are ignored. -/
theorem getWorkspaceRadius_sum (cfg : RobotConfig) :
    getWorkspaceRadius cfg = (cfg.dhParameters.map DHParameters.a).sum ∧
    |getWorkspaceRadius cfg - (cfg.dhParameters.map DHParameters.a).sum| < 1 / 10 ^ 10 ∧
    (∀ cfg' : RobotConfig,
      cfg'.dhParameters.map DHParameters.a = cfg.dhParameters.map DHParameters.a →
      getWorkspaceRadius cfg' = getWorkspaceRadius cfg) := by
  have key : ∀ c : RobotConfig,
      getWorkspaceRadius c = (c.dhParameters.map DHParameters.a).sum := by
    intro c
    unfold getWorkspaceRadius
    rw [foldl_add_a, zero_add]
  refine ⟨key cfg, ?_, ?_⟩
  · rw [key cfg, sub_self, abs_zero]
    norm_num
  · intro cfg' hmap
    rw [key cfg', key cfg, hmap]

/-- Witness for C9: the radius of the tall chain equals the exact link-length
sum, and a configuration differing only in joint types (hence with the same
link lengths) gets the same radius. -/
theorem getWorkspaceRadius_sum_witness :
    getWorkspaceRadius cfgTall = (cfgTall.dhParameters.map DHParameters.a).sum ∧
    getWorkspaceRadius cfgPrismatic = getWorkspaceRadius cfgTall :=
  ⟨(getWorkspaceRadius_sum cfgTall).1,
   (getWorkspaceRadius_sum cfgTall).2.2 cfgPrismatic rfl⟩

/-! ### C4 -/

/-- C4: for every configuration and target, the returned `IKResult` satisfies
`valid == (len(solutions) > 0)` and carries at most two candidates. -/
theorem ik_result_shape (cfg : RobotConfig) (x y z : ℝ) :
    ((calculateInverseKinematics cfg x y z).valid = true ↔
      0 < (calculateInverseKinematics cfg x y z).solutions.length) ∧
    (calculateInverseKinematics cfg x y z).solutions.length ≤ 2 := by
  unfold calculateInverseKinematics
  split
  · simp
  · simp only []
    split
    · simp
    · split
      · simp
      · split <;> simp

/-! ### C6 (amended) -/

/-- C6 (amended): the inverse solver runs its search whenever the joint count
is exactly three, regardless of the declared joint types; for every
configuration whose joint count is not three it immediately returns
`{solutions: [], valid: false}` as a normal result value, not an error. -/
theorem ik_non_three_joints_invalid (cfg : RobotConfig) (x y z : ℝ)
    (h : cfg.dhParameters.length ≠ 3) :
    calculateInverseKinematics cfg x y z = { solutions := [], valid := false } := by
  unfold calculateInverseKinematics
  rw [if_pos h]

/-- Witness for the amended C6: a two-joint robot. -/
theorem ik_non_three_joints_invalid_witness :
    cfgTwo.dhParameters.length ≠ 3 ∧
    calculateInverseKinematics cfgTwo 0 0 0 = { solutions := [], valid := false } :=
  ⟨by simp [cfgTwo], ik_non_three_joints_invalid cfgTwo 0 0 0 (by simp [cfgTwo])⟩

/-! ### C8 -/

/-- C8: for every three-joint configuration and every target whose planar
radius `sqrt(x²+y²)` exceeds `a1+a2+a3` (the sum of the three link lengths),
the inverse solver returns `{solutions: [], valid: false}` immediately, by
the fast-rejection check that runs before the angular sweep. -/
theorem ik_fast_rejection (cfg : RobotConfig) (p1 p2 p3 : DHParameters) (x y z : ℝ)
    (h : cfg.dhParameters = [p1, p2, p3])
    (hr : Real.sqrt (x * x + y * y) > p1.a + p2.a + p3.a) :
    calculateInverseKinematics cfg x y z = { solutions := [], valid := false } := by
  unfold calculateInverseKinematics
  rw [if_neg (by rw [h]; simp)]
  rw [if_pos (by rw [h]; simpa using hr)]

/-- Witness for C8: the arm with total reach 6 and the target `(10, 0, 0)`
at planar radius 10. -/
theorem ik_fast_rejection_witness :
    cfgArm.dhParameters = [⟨0, 0, 1, 0⟩, ⟨0, 0, 2, 0⟩, ⟨0, 0, 3, 0⟩] ∧
    Real.sqrt ((10 : ℝ) * 10 + 0 * 0) >
      (DHParameters.mk 0 0 1 0).a + (DHParameters.mk 0 0 2 0).a + (DHParameters.mk 0 0 3 0).a ∧
    calculateInverseKinematics cfgArm 10 0 0 = { solutions := [], valid := false } := by
  have hs : Real.sqrt ((10 : ℝ) * 10 + 0 * 0) = 10 := by
    rw [show ((10 : ℝ) * 10 + 0 * 0) = 10 ^ 2 by norm_num]
    exact Real.sqrt_sq (by norm_num)
  refine ⟨rfl, by rw [hs]; norm_num, ?_⟩
  exact ik_fast_rejection cfgArm _ _ _ 10 0 0 rfl (by rw [hs]; norm_num)

/-! ### C1 -/

/-- The source's indexed map `dhParameters.map((params, i) => f(params, angles[i]))`
agrees with the index-free pairwise map once the angle count matches. -/
lemma mapIdx_getD_eq_zipWith {α γ : Type} (f : α → ℝ → γ) :
    ∀ (l : List α) (m : List ℝ), m.length = l.length →
      l.mapIdx (fun i p => f p (m.getD i 0)) = List.zipWith f l m := by
  intro l
  induction l with
  | nil => intro m _; simp
  | cons p t ih =>
    intro m hm
    cases m with
    | nil => simp at hm
    | cons q m' =>
      simp only [List.mapIdx_cons, List.getD_cons_zero, List.zipWith_cons_cons,
        List.getD_cons_succ]
      exact congrArg _ (ih m' (by simpa using hm))

/-- C1: for every configuration with at least one joint and every angle list
of matching length, `calculateForwardKinematics` builds one DH transform per
joint from that joint's commanded angle, composes them left-to-right by
matrix multiplication in joint order, and returns the pose whose position is
rows 0–2 of column 3 and whose orientation is the top-left 3×3 block of the
composed transform — i.e. it succeeds with exactly the spec-side pose. -/
theorem fk_builds_composes_extracts (cfg : RobotConfig) (angles : List ℝ)
    (hne : cfg.dhParameters ≠ []) (hlen : angles.length = cfg.dhParameters.length) :
    calculateForwardKinematics cfg angles = .ok (specForwardPose cfg angles) := by
  obtain ⟨p, ps, hp⟩ := List.exists_cons_of_ne_nil hne
  have hz : dhTransforms cfg angles =
      List.zipWith calculateDHTransform cfg.dhParameters angles :=
    mapIdx_getD_eq_zipWith calculateDHTransform cfg.dhParameters angles hlen
  cases angles with
  | nil => rw [hp] at hlen; simp at hlen
  | cons v vs =>
    unfold calculateForwardKinematics
    rw [if_neg (not_not_intro hlen), hz]
    unfold specForwardPose specForwardTransform
    rw [hp, List.zipWith_cons_cons, List.foldl_cons, one_mul]

/-- Witness for C1: the one-joint robot at angle 0. -/
theorem fk_builds_composes_extracts_witness :
    cfgOne.dhParameters ≠ [] ∧ [(0 : ℝ)].length = cfgOne.dhParameters.length ∧
    calculateForwardKinematics cfgOne [0] = .ok (specForwardPose cfgOne [0]) :=
  ⟨by simp [cfgOne], by simp [cfgOne],
   fk_builds_composes_extracts cfgOne [0] (by simp [cfgOne]) (by simp [cfgOne])⟩

/-! ### Sweep helper lemmas -/

lemma updateBest_isSome (best : Option Candidate) (c : Candidate) :
    (updateBest best c).isSome = true := by
  cases best with
  | none => rfl
  | some b =>
    show (if c.error < b.error then some c else some b).isSome = true
    split <;> rfl

lemma foldl_isSome (step : Option Candidate → ℝ → Option Candidate)
    (hstep : ∀ acc θ, (step acc θ).isSome = true) :
    ∀ (l : List ℝ) (a : Option Candidate), l ≠ [] → (l.foldl step a).isSome = true := by
  intro l
  induction l with
  | nil => intro a h; exact absurd rfl h
  | cons θ t ih =>
    intro a _
    rw [List.foldl_cons]
    cases t with
    | nil => simpa using hstep a θ
    | cons θ' t' => exact ih (step a θ) (by simp)

lemma thetaSamples_ne_nil : thetaSamples ≠ [] := by
  have hl : 0 < thetaSamples.length := by
    unfold thetaSamples
    rw [List.length_map, List.length_range]
    norm_num
  exact List.length_pos.mp hl

/-- On the tall chain (`a1 = 0`, `a2 = a3 = 1`, shoulder at height 10) aimed
at `(1, 0, 10)`, every base-angle sample passes all three guards, so each
elbow-down iteration installs or keeps a candidate. -/
lemma tall_step_isSome (cfg : RobotConfig) (acc : Option Candidate) (θ : ℝ) :
    (elbowDownStep cfg 0 1 1 10 0 1 0 10 acc θ).isSome = true := by
  unfold elbowDownStep
  simp only [zero_mul, sub_zero, add_zero, sub_self, mul_zero, mul_one, one_mul,
    Real.sqrt_one]
  rw [if_neg (by norm_num)]
  rw [if_neg (by rw [show ((1 : ℝ) + 1 - 1) / 2 = 1 / 2 by norm_num,
    abs_of_nonneg (by norm_num : (0 : ℝ) ≤ 1 / 2)]; norm_num)]
  rw [if_neg (by rw [show ((1 : ℝ) + 1 - 1) / 2 = 1 / 2 by norm_num,
    abs_of_nonneg (by norm_num : (0 : ℝ) ≤ 1 / 2)]; norm_num)]
  exact updateBest_isSome acc _

lemma sweepDown_tall_isSome (cfg : RobotConfig) :
    (sweepDown cfg 0 1 1 10 0 1 0 10).isSome = true :=
  foldl_isSome _ (tall_step_isSome cfg) thetaSamples none thetaSamples_ne_nil

/-- Any configuration whose DH table is the tall chain produces a valid
inverse-kinematics result for the target `(1, 0, 10)`: the planar fast
rejection does not fire (planar radius 1 ≤ reach 2), and the elbow-down
sweep always finds a candidate. -/
lemma ik_tall_valid (cfg : RobotConfig) (h : cfg.dhParameters = dhTall) :
    (calculateInverseKinematics cfg 1 0 10).valid = true := by
  unfold calculateInverseKinematics
  rw [if_neg (by rw [h]; simp [dhTall])]
  rw [h]
  simp only [dhTall, List.getD_cons_zero, List.getD_cons_succ, mul_one, one_mul,
    mul_zero, zero_mul, add_zero, Real.sqrt_one]
  rw [if_neg (by norm_num)]
  have hs := sweepDown_tall_isSome cfg
  obtain ⟨b, hb⟩ := Option.isSome_iff_exists.mp hs
  rw [hb]
  show (match sweepUp cfg 0 1 1 10 0 1 0 10 (-(b.solution.getD 2 0)) with
        | none => ({ solutions := [b.solution], valid := true } : IKResult)
        | some up => { solutions := [b.solution, up.solution], valid := true }).valid = true
  rcases hu : sweepUp cfg 0 1 1 10 0 1 0 10 (-(b.solution.getD 2 0)) with _ | u <;>
    rfl

/-! ### C3 (corrected) -/

/-- Counterexample to C3 as stated: for the tall chain, the target
`(1, 0, 10)` lies at Euclidean distance `√101 ≈ 10.05` from the base origin,
far beyond `getWorkspaceRadius() = 2`, yet the solver returns a *valid*
result — the rejection check compares only the planar radius `√(x²+y²) = 1`
against the reach, and the elevated shoulder (`d1 = 10`) makes the target
reachable for the sweep. -/
theorem ik_euclidean_distance_counterexample :
    Real.sqrt ((1 : ℝ) * 1 + 0 * 0 + 10 * 10) > getWorkspaceRadius cfgTall ∧
    (calculateInverseKinematics cfgTall 1 0 10).valid = true := by
  constructor
  · have hr : getWorkspaceRadius cfgTall = 2 := by
      norm_num [getWorkspaceRadius, cfgTall, dhTall]
    have h101 : ((1 : ℝ) * 1 + 0 * 0 + 10 * 10) = 101 := by norm_num
    have h4 : Real.sqrt 4 = 2 := by
      rw [show (4 : ℝ) = 2 ^ 2 by norm_num]
      exact Real.sqrt_sq (by norm_num)
    rw [hr, h101, ← h4]
    exact Real.sqrt_lt_sqrt (by norm_num) (by norm_num)
  · exact ik_tall_valid cfgTall rfl

/-- C3 (amended): for every three-joint configuration and every target whose
*planar* distance `sqrt(x²+y²)` from the base axis exceeds
`getWorkspaceRadius()`, the solver returns `valid = false` with an empty
solution list. (The claim's "Euclidean distance from the base origin" fails
on the code — the rejection uses the planar radius only.) -/
theorem ik_planar_radius_exceeds_workspace (cfg : RobotConfig) (p1 p2 p3 : DHParameters)
    (x y z : ℝ) (h : cfg.dhParameters = [p1, p2, p3])
    (hr : Real.sqrt (x * x + y * y) > getWorkspaceRadius cfg) :
    calculateInverseKinematics cfg x y z = { solutions := [], valid := false } := by
  have hw : getWorkspaceRadius cfg = p1.a + p2.a + p3.a := by
    simp [getWorkspaceRadius, h]
  rw [hw] at hr
  unfold calculateInverseKinematics
  rw [if_neg (by rw [h]; simp)]
  rw [if_pos (by rw [h]; simpa using hr)]

/-- Witness for the amended C3: the arm with reach 6 and planar radius 10. -/
theorem ik_planar_radius_exceeds_workspace_witness :
    Real.sqrt ((0 : ℝ) * 0 + 10 * 10) > getWorkspaceRadius cfgArm ∧
    calculateInverseKinematics cfgArm 0 10 0 = { solutions := [], valid := false } := by
  have hs : Real.sqrt ((0 : ℝ) * 0 + 10 * 10) = 10 := by
    rw [show ((0 : ℝ) * 0 + 10 * 10) = 10 ^ 2 by norm_num]
    exact Real.sqrt_sq (by norm_num)
  have hr : getWorkspaceRadius cfgArm = 6 := by
    norm_num [getWorkspaceRadius, cfgArm]
  refine ⟨by rw [hs, hr]; norm_num, ?_⟩
  exact ik_planar_radius_exceeds_workspace cfgArm _ _ _ 0 10 0 rfl (by rw [hs, hr]; norm_num)

/-! ### C6 (corrected) -/

/-- Counterexample to C6 as stated: the solver's guard checks only the joint
count, never the joint types — on a three-joint configuration whose joints
are all declared *prismatic* the search still runs and returns a valid
solution, contradicting "runs its search only when the configuration has
exactly three revolute joints". -/
theorem ik_prismatic_counterexample :
    cfgPrismatic.jointTypes =
      [JointType.prismatic, JointType.prismatic, JointType.prismatic] ∧
    (calculateInverseKinematics cfgPrismatic 1 0 10).valid = true :=
  ⟨rfl, ik_tall_valid cfgPrismatic rfl⟩

/-! ### C5 -/

/-- Gate invariant of the elbow-up sweep: every candidate it installs has
position error strictly below the fixed tolerance `0.1`, so any surviving
accumulator value satisfies that bound. -/
lemma elbowUp_foldl_error_lt (cfg : RobotConfig) (a1 a2 a3 d1 d2 x y z invT3 : ℝ) :
    ∀ (l : List ℝ) (acc : Option Candidate),
      (∀ v, acc = some v → v.error < 1 / 10) →
      ∀ u, l.foldl (elbowUpStep cfg a1 a2 a3 d1 d2 x y z invT3) acc = some u →
        u.error < 1 / 10 := by
  intro l
  induction l with
  | nil =>
    intro acc hacc u hl
    rw [List.foldl_nil] at hl
    exact hacc u hl
  | cons θ t ih =>
    intro acc hacc u hl
    rw [List.foldl_cons] at hl
    refine ih _ ?_ u hl
    intro v hv
    unfold elbowUpStep at hv
    simp only [] at hv
    split at hv
    · exact hacc v hv
    · split at hv
      · exact hacc v hv
      · split at hv
        · split at hv
          · rename_i hcond
            injection hv with hv2
            rw [← hv2]
            exact hcond
          · exact Option.noConfusion hv
        · split at hv
          · rename_i hcond
            injection hv with hv2
            rw [← hv2]
            exact hcond.1
          · injection hv with hv2
            subst hv2
            exact hacc _ rfl

/-- The DH transform of a flat link (`theta = d = alpha = 0`, `a = 1`) at
joint angle 0: a pure unit translation along x. -/
noncomputable def flatLink : Matrix (Fin 4) (Fin 4) ℝ :=
  Matrix.of ![![1, 0, 0, 1], ![0, 1, 0, 0], ![0, 0, 1, 0], ![0, 0, 0, 1]]

/-- The composed end transform of the flat arm at zero angles: translation
by 2 along x. -/
noncomputable def flatEnd : Matrix (Fin 4) (Fin 4) ℝ :=
  Matrix.of ![![1, 0, 0, 2], ![0, 1, 0, 0], ![0, 0, 1, 0], ![0, 0, 0, 1]]

lemma dh_flat_base : calculateDHTransform ⟨0, 0, 0, 0⟩ 0 = 1 := by
  unfold calculateDHTransform
  ext i j
  fin_cases i <;> fin_cases j <;>
    norm_num [Matrix.one_apply, Real.cos_zero, Real.sin_zero, Matrix.vecHead, Matrix.vecTail,
      Fin.ext_iff]

lemma dh_flat_link : calculateDHTransform ⟨0, 0, 1, 0⟩ 0 = flatLink := by
  unfold calculateDHTransform flatLink
  ext i j
  fin_cases i <;> fin_cases j <;>
    simp [Real.cos_zero, Real.sin_zero]

lemma flat_mul : flatLink * flatLink = flatEnd := by
  unfold flatLink flatEnd
  ext i j
  fin_cases i <;> fin_cases j <;>
    norm_num [Matrix.mul_apply, Fin.sum_univ_four, Matrix.vecHead, Matrix.vecTail]

lemma fk_flat : calculateForwardKinematics cfgFlat [0, 0, 0] = .ok (poseOfTransform flatEnd) := by
  unfold calculateForwardKinematics
  rw [if_neg (by simp [cfgFlat])]
  have ht : dhTransforms cfgFlat [0, 0, 0] = [1, flatLink, flatLink] := by
    unfold dhTransforms
    simp only [cfgFlat, List.mapIdx_cons, List.mapIdx_nil, List.getD_cons_zero,
      List.getD_cons_succ, dh_flat_base, dh_flat_link]
  rw [ht]
  show Except.ok (poseOfTransform ([flatLink, flatLink].foldl (· * ·) 1)) = _
  rw [List.foldl_cons, List.foldl_cons, List.foldl_nil, one_mul, flat_mul]

lemma fkPositionD_flat : fkPositionD cfgFlat [0, 0, 0] = ![2, 0, 0] := by
  unfold fkPositionD
  rw [fk_flat]
  show (poseOfTransform flatEnd).position = ![2, 0, 0]
  funext i
  fin_cases i <;>
    simp [poseOfTransform, flatEnd, Matrix.vecHead, Matrix.vecTail, Fin.castSucc,
      Fin.castAdd, Fin.castLE]

lemma positionError_flat : positionError cfgFlat [0, 0, 0] 2 0 0 = 0 := by
  unfold positionError
  rw [fkPositionD_flat]
  norm_num [Real.sqrt_zero]

/-- One elbow-up iteration on the flat arm (`a1 = 0`, `a2 = a3 = 1`, all
offsets 0) with target `(2, 0, 0)`, inverted elbow angle 0, at base-angle
sample 0: the straight-arm candidate `[0, 0, 0]` hits the target exactly, so
it is installed with error 0. -/
lemma elbowUp_flat_step :
    elbowUpStep cfgFlat 0 1 1 0 0 2 0 0 0 none 0 = some ⟨[0, 0, 0], 0⟩ := by
  unfold elbowUpStep
  simp only [Real.cos_zero, Real.sin_zero, zero_mul, mul_zero, mul_one, one_mul,
    sub_zero, sub_self, add_zero, zero_add]
  have hsq : Real.sqrt ((2 : ℝ) * 2) = 2 := by
    rw [show (2 : ℝ) * 2 = 2 ^ 2 by norm_num]
    exact Real.sqrt_sq (by norm_num)
  rw [hsq]
  rw [if_neg (by norm_num)]
  rw [show ((1 : ℝ) + 2 * 2 - 1) / (2 * 2) = 1 by norm_num]
  rw [if_neg (by rw [abs_one]; norm_num)]
  rw [Real.arccos_one]
  have hat : atan2 0 2 = 0 := by
    unfold atan2
    rw [if_pos (by norm_num : (0 : ℝ) < 2)]
    norm_num [Real.arctan_zero]
  rw [hat, show (0 : ℝ) - 0 = 0 from sub_zero 0, positionError_flat]
  rw [if_pos (by norm_num : (0 : ℝ) < 1 / 10)]

/-- C5: the asymmetry between the two inverse-kinematics branches.
(1) The elbow-down accumulator keeps the incumbent whenever the new
candidate's error is not strictly smaller — so the first-found candidate
wins ties and a later equal-error candidate never replaces it; (2) a
strictly smaller error does replace the incumbent; (3) whenever the
elbow-down sweep produces a best candidate, its solution is returned first
with *no* tolerance gate — however large its error — and the solution list
is exactly that solution followed by the elbow-up result, if any; (4) any
candidate surviving the elbow-up sweep has error strictly below the fixed
tolerance 0.1, so an elbow-up solution is appended only under that gate. -/
theorem ik_branch_asymmetry :
    (∀ b c : Candidate, ¬ c.error < b.error → updateBest (some b) c = some b) ∧
    (∀ b c : Candidate, c.error < b.error → updateBest (some b) c = some c) ∧
    (∀ (cfg : RobotConfig) (p1 p2 p3 : DHParameters) (x y z : ℝ) (b : Candidate),
      cfg.dhParameters = [p1, p2, p3] →
      ¬ Real.sqrt (x * x + y * y) > p1.a + p2.a + p3.a →
      sweepDown cfg p1.a p2.a p3.a p1.d p2.d x y z = some b →
      (calculateInverseKinematics cfg x y z).solutions =
        b.solution ::
          ((sweepUp cfg p1.a p2.a p3.a p1.d p2.d x y z
              (-(b.solution.getD 2 0))).map Candidate.solution).toList) ∧
    (∀ (cfg : RobotConfig) (a1 a2 a3 d1 d2 x y z invT3 : ℝ) (l : List ℝ) (u : Candidate),
      l.foldl (elbowUpStep cfg a1 a2 a3 d1 d2 x y z invT3) none = some u →
      u.error < 1 / 10) := by
  refine ⟨?_, ?_, ?_, ?_⟩
  · intro b c h
    show (if c.error < b.error then some c else some b) = some b
    rw [if_neg h]
  · intro b c h
    show (if c.error < b.error then some c else some b) = some c
    rw [if_pos h]
  · intro cfg p1 p2 p3 x y z b h hr hb
    unfold calculateInverseKinematics
    rw [if_neg (by rw [h]; simp)]
    rw [h]
    simp only [List.getD_cons_zero, List.getD_cons_succ]
    rw [if_neg hr]
    rw [hb]
    show (match sweepUp cfg p1.a p2.a p3.a p1.d p2.d x y z (-(b.solution.getD 2 0)) with
          | none => ({ solutions := [b.solution], valid := true } : IKResult)
          | some up => { solutions := [b.solution, up.solution], valid := true }).solutions =
        b.solution ::
          ((sweepUp cfg p1.a p2.a p3.a p1.d p2.d x y z
              (-(b.solution.getD 2 0))).map Candidate.solution).toList
    rcases sweepUp cfg p1.a p2.a p3.a p1.d p2.d x y z (-(b.solution.getD 2 0)) with _ | u <;>
      rfl
  · intro cfg a1 a2 a3 d1 d2 x y z invT3 l u hl
    exact elbowUp_foldl_error_lt cfg a1 a2 a3 d1 d2 x y z invT3 l none
      (fun v hv => Option.noConfusion hv) u hl

/-- Witness for C5: a tie at error 1 keeps the incumbent; error 0 beats
error 1; on the tall chain the elbow-down sweep's candidate is returned as
the head solution; and the elbow-up gate invariant instantiated on the flat
arm, whose single-sample sweep installs the exact candidate `[0,0,0]` with
error 0 < 0.1. -/
theorem ik_branch_asymmetry_witness :
    updateBest (some ⟨[0], 1⟩) ⟨[1], 1⟩ = some ⟨[0], 1⟩ ∧
    updateBest (some ⟨[0], 1⟩) ⟨[1], 0⟩ = some ⟨[1], 0⟩ ∧
    (calculateInverseKinematics cfgTall 1 0 10).solutions.head? =
      (sweepDown cfgTall 0 1 1 10 0 1 0 10).map Candidate.solution ∧
    (Candidate.mk [0, 0, 0] 0).error < 1 / 10 := by
  obtain ⟨b, hb⟩ := Option.isSome_iff_exists.mp (sweepDown_tall_isSome cfgTall)
  have hcond : ¬ Real.sqrt ((1 : ℝ) * 1 + 0 * 0) >
      (DHParameters.mk 0 10 0 0).a + (DHParameters.mk 0 0 1 0).a +
        (DHParameters.mk 0 0 1 0).a := by
    show ¬ Real.sqrt ((1 : ℝ) * 1 + 0 * 0) > (0 : ℝ) + 1 + 1
    norm_num [Real.sqrt_one]
  have hfold : ([0] : List ℝ).foldl (elbowUpStep cfgFlat 0 1 1 0 0 2 0 0 0) none =
      some ⟨[0, 0, 0], 0⟩ := by
    rw [List.foldl_cons, List.foldl_nil]
    exact elbowUp_flat_step
  refine ⟨?_, ?_, ?_, ?_⟩
  · exact ik_branch_asymmetry.1 ⟨[0], 1⟩ ⟨[1], 1⟩ (by norm_num)
  · exact ik_branch_asymmetry.2.1 ⟨[0], 1⟩ ⟨[1], 0⟩ (by norm_num)
  · have h3 := ik_branch_asymmetry.2.2.1 cfgTall ⟨0, 10, 0, 0⟩ ⟨0, 0, 1, 0⟩ ⟨0, 0, 1, 0⟩
      1 0 10 b rfl hcond hb
    rw [h3, hb]
    simp
  · exact ik_branch_asymmetry.2.2.2 cfgFlat 0 1 1 0 0 2 0 0 0 [0] ⟨[0, 0, 0], 0⟩ hfold
